import Mathlib

/-!
# Verification of the `personalize-poc` polling utilities

Shallow embedding of the status-polling logic of the `personalize-poc`
notebooks: the completion predicates, the multi-job waiting predicates, the
campaign-deployment wait loop, the session-id event-logging helper, and the
name-lookup helpers.  The generic `util.progress.polling_spinner` primitive is
not part of the corpus (only its call sites are), so it is modelled from its
specification.
-/

deriving instance DecidableEq for Except

namespace PersonalizePoc

/-- Python's substring test `needle in haystack` on strings. -/
def pyIn (needle haystack : String) : Bool :=
  decide (List.IsInfix needle.toList haystack.toList)

/-- Result of calling a Python completion predicate: it can return `True`
(`.ok (some true)`), fall through returning `None` (`.ok none`), or raise
`ValueError` with a message (`.error msg`). -/
abbrev PredResult := Except String (Option Bool)

/-- `is_dsg_ready` from `02b_Importing_Data_(Python_SDK).ipynb`: the status
field of `desc["datasetGroup"]` is the only part of the description the
function reads, so the embedding takes it directly. -/
def is_dsg_ready (status : String) : PredResult :=
  if status = "ACTIVE" then .ok (some true)
  else if pyIn "FAILED" status then .error "Failed to create Dataset Group!"
  else .ok none

/-- `is_ds_ready` from `02b_Importing_Data_(Python_SDK).ipynb`; note the
failure branch tests for the substring `"CREATE FAILED"`, not `"FAILED"`. -/
def is_ds_ready (status : String) : PredResult :=
  if status = "ACTIVE" then .ok (some true)
  else if pyIn "CREATE FAILED" status then .error "Failed to create Dataset!"
  else .ok none

/-- `is_batch_job_finished` from the campaigns/filters interaction notebook. -/
def is_batch_job_finished (status : String) : PredResult :=
  if status = "ACTIVE" then .ok (some true)
  else if pyIn "FAILED" status then .error "Batch job failed!"
  else .ok none

/-- A Python call raised (`ValueError`) rather than returning. -/
def raised {α : Type} (r : Except String α) : Prop := ∃ m, r = Except.error m

theorem raised_error {α : Type} (m : String) : raised (Except.error m : Except String α) :=
  ⟨m, rfl⟩

theorem not_raised_ok {α : Type} (v : α) : ¬ raised (Except.ok v : Except String α) := by
  rintro ⟨m, h⟩; cases h

/-- If `find?` succeeds, the list splits at the first element satisfying the
predicate. -/
theorem find?_split {α : Type} (p : α → Bool) :
    ∀ (l : List α) (a : α), l.find? p = some a →
      ∃ l1 l2, l = l1 ++ a :: l2 ∧ (∀ x ∈ l1, p x = false) ∧ p a = true
  | [], a, h => by simp [List.find?] at h
  | x :: xs, a, h => by
    by_cases hx : p x = true
    · refine ⟨[], xs, ?_, ?_, ?_⟩ <;> simp_all [List.find?]
    · rw [List.find?, Bool.of_not_eq_true hx] at h
      obtain ⟨l1, l2, rfl, hl1, hpa⟩ := find?_split p xs a h
      exact ⟨x :: l1, l2, rfl, by simpa [hx] using hl1, hpa⟩

/-- A campaign record as returned by `list_campaigns`, restricted to the
fields the lookup helper reads. -/
structure Campaign where
  name : String
  campaignArn : String

/-- `get_campaign_arn_by_name` from the campaigns/filters interaction
notebook: `next(filter(lambda c: c["name"] == campaign_name, campaigns))`
yields the first matching campaign; on `StopIteration` the function raises
`ValueError`. -/
def get_campaign_arn_by_name (campaigns : List Campaign) (campaign_name : String) :
    Except String String :=
  match campaigns.find? (fun c => c.name == campaign_name) with
  | some c => .ok c.campaignArn
  | none => .error ("Campaign '" ++ campaign_name ++ "' not found!")

/-- A filter record as returned by `list_filters`, restricted to the fields
the lookup helper reads. -/
structure PersonalizeFilter where
  name : String
  filterArn : String

/-- `get_filter_arn_by_name` from the campaigns/filters interaction notebook,
the analogue of `get_campaign_arn_by_name` over the `Filters` list. -/
def get_filter_arn_by_name (filters : List PersonalizeFilter) (filter_name : String) :
    Except String String :=
  match filters.find? (fun f => f.name == filter_name) with
  | some f => .ok f.filterArn
  | none => .error ("Filter '" ++ filter_name ++ "' not found!")

/-- Classification of one Status Snapshot by a Completion Predicate: not yet
finished (continue polling), finished successfully, or finished with fatal
failure. -/
inductive Outcome where
  | notYet
  | success
  | failed
deriving DecidableEq

/-- How one run of the polling spinner ends: normal return, `JobFailed`
carrying the last snapshot, `PollingTimedOut` carrying the last snapshot, or
an error of the status producer itself, propagated unmodified. -/
inductive SpinOutcome (σ ε : Type) where
  | success (snapshot : σ)
  | jobFailed (snapshot : σ)
  | timedOut (snapshot : σ)
  | producerError (e : ε)
deriving DecidableEq

/-- Observable behaviour of one spinner run: how many times the status
producer was invoked, the progress lines written, and the final result. -/
structure SpinRun (σ ε : Type) where
  invocations : Nat
  progress : List String
  result : SpinOutcome σ ε
deriving DecidableEq

/-- Modelled from the spec: the repository's `util/progress.py` module — home
of `util.progress.polling_spinner` — is absent from the corpus (only its call
sites are present), so the spinner is modelled from §4.1 of the
specification: immediately invoke the status producer and the completion
predicate; on "finished successfully" return normally; on "finished with
fatal failure" fail with `JobFailed` carrying the snapshot; otherwise render
the snapshot via the display formatter, sleep for `poll_secs`, and repeat —
unless the elapsed time since the first invocation (modelled as the number of
completed sleeps times `poll_secs`, fetches being instantaneous) would exceed
`timeout_secs`, in which case fail with `PollingTimedOut`.  An error of the
producer itself ends the run at once, unwrapped.  `spinAux k` is the run from
the `k`-th invocation on; the producer is a function of the invocation index,
which also makes "exactly one fetch per iteration, no overlapping fetches"
explicit — iteration `k` consumes exactly `fn_poll_result k`.  The spec
requires a positive poll interval; the model times out rather than spin
forever if `poll_secs = 0`. -/
def spinAux {σ ε : Type} (fn_poll_result : Nat → Except ε σ)
    (fn_is_finished : σ → Outcome) (fn_stringify_result : σ → String)
    (poll_secs timeout_secs : Nat) (k : Nat) : SpinRun σ ε :=
  match fn_poll_result k with
  | .error e => ⟨k + 1, [], .producerError e⟩
  | .ok s =>
    match fn_is_finished s with
    | .success => ⟨k + 1, [], .success s⟩
    | .failed => ⟨k + 1, [], .jobFailed s⟩
    | .notYet =>
      if h : (k + 1) * poll_secs ≤ timeout_secs ∧ 0 < poll_secs then
        let rest := spinAux fn_poll_result fn_is_finished fn_stringify_result
          poll_secs timeout_secs (k + 1)
        ⟨rest.invocations, fn_stringify_result s :: rest.progress, rest.result⟩
      else ⟨k + 1, [fn_stringify_result s], .timedOut s⟩
termination_by timeout_secs - k * poll_secs
decreasing_by
  simp only [Nat.succ_mul] at h ⊢
  omega

/-- Modelled from the spec: `util.progress.polling_spinner`, entered at the
first (immediate) invocation. -/
def polling_spinner {σ ε : Type} (fn_poll_result : Nat → Except ε σ)
    (fn_is_finished : σ → Outcome) (fn_stringify_result : σ → String)
    (poll_secs timeout_secs : Nat) : SpinRun σ ε :=
  spinAux fn_poll_result fn_is_finished fn_stringify_result poll_secs timeout_secs 0

/-- A dataset import job description, restricted to the fields
`are_imports_finished` reads. -/
structure ImportJobDesc where
  status : String
  datasetImportJobArn : String

/-- `are_imports_finished` from `02b_Importing_Data_(Python_SDK).ipynb`.  The
Python function closes over the notebook-global `waiting_arns` list and
mutates it with `list.remove`; the embedding threads that list explicitly and
returns its new value with the predicate's result.  `list.remove` raises
`ValueError` when the element is absent, which the embedding preserves.  The
`descriptions` argument stands for the realized Status Snapshot: the sequence
of job descriptions the iterator passed by `fn_poll_result` yields. -/
def are_imports_finished (waiting_arns : List String) :
    List ImportJobDesc → Except String (List String × Option Bool)
  | [] => .ok (waiting_arns, if waiting_arns.length = 0 then some true else none)
  | desc :: rest =>
    if desc.status = "ACTIVE" then
      if desc.datasetImportJobArn ∈ waiting_arns then
        are_imports_finished (waiting_arns.erase desc.datasetImportJobArn) rest
      else .error "list.remove(x): x not in list"
    else if pyIn "FAILED" desc.status then .error "Data import failed!"
    else are_imports_finished waiting_arns rest

/-- A solution version description, restricted to the fields
`are_solutions_finished` reads. -/
structure SolutionVersionDesc where
  status : String
  solutionVersionArn : String

/-- `are_solutions_finished` from
`04a_Deploying_Campaigns_and_Filters_(Console).ipynb`, the solution-version
sibling of `are_imports_finished` (its extra `print` on completion only
writes to the display stream and is not modelled). -/
def are_solutions_finished (waiting_arns : List String) :
    List SolutionVersionDesc → Except String (List String × Option Bool)
  | [] => .ok (waiting_arns, if waiting_arns.length = 0 then some true else none)
  | desc :: rest =>
    if desc.status = "ACTIVE" then
      if desc.solutionVersionArn ∈ waiting_arns then
        are_solutions_finished (waiting_arns.erase desc.solutionVersionArn) rest
      else .error "list.remove(x): x not in list"
    else if pyIn "FAILED" desc.status then .error "Build failed!"
    else are_solutions_finished waiting_arns rest

/-- ARNs of the descriptions whose status is `"ACTIVE"`. -/
def activeImportArns (descs : List ImportJobDesc) : List String :=
  (descs.filter (fun d => d.status == "ACTIVE")).map (fun d => d.datasetImportJobArn)

/-- The waiting list with every ARN observed `"ACTIVE"` removed. -/
def remainingArns (waiting : List String) (descs : List ImportJobDesc) : List String :=
  waiting.filter (fun a => decide (¬ a ∈ activeImportArns descs))

/-- View of a solution-version description as an import-job description; the
two waiting predicates act identically through this view. -/
def SolutionVersionDesc.toImport (s : SolutionVersionDesc) : ImportJobDesc :=
  ⟨s.status, s.solutionVersionArn⟩

/-- One pass of the campaign wait loop's `for campaign_arn in
in_progress_campaigns` body from
`04b_Deploying_Campaigns_and_Filters_(Python_SDK).ipynb`.  Python's `for`
iterates by an internal index, so `list.remove` during iteration shifts later
elements one slot left and the element after a removed one is skipped for the
rest of the pass — the embedding keeps the explicit index `i` to preserve
that.  `statusOf arn` is the status `describe_campaign` reports for `arn`
during this pass; a status of `"ACTIVE"` or `"CREATE FAILED"` removes the
campaign from the list (after printing, which is display-only).  Returns the
ARNs described in call order and the list as it stands after the pass. -/
def campaignPass (statusOf : String → String) (lst : List String) (i : Nat) :
    List String × List String :=
  if h : i < lst.length then
    let arn := lst.get ⟨i, h⟩
    let status := statusOf arn
    if status = "ACTIVE" then
      let r := campaignPass statusOf (lst.erase arn) (i + 1)
      (arn :: r.1, r.2)
    else if status = "CREATE FAILED" then
      let r := campaignPass statusOf (lst.erase arn) (i + 1)
      (arn :: r.1, r.2)
    else
      let r := campaignPass statusOf lst (i + 1)
      (arn :: r.1, r.2)
  else ([], lst)
termination_by lst.length - i
decreasing_by
  all_goals
    first
    | omega
    | (have hh := List.length_erase_of_mem (List.get_mem lst i h); omega)

/-- The campaign-deployment wait loop (`max_time = time.time() + 3*60*60;
while time.time() < max_time: ...describe each in-progress campaign...;
break when none left; time.sleep(60)`), with the clock abstracted: `t` is
the elapsed seconds since the loop started (so `max_time` is the 3-hour
budget `3*60*60`), each sleep adds 60 seconds and describe calls take no
model time; `statusOf k arn` is the status reported for `arn` during pass
`k`.  Returns the per-pass described-ARN lists, the final clock value, and
the final `in_progress_campaigns`. -/
def campaignWaitLoop (statusOf : Nat → String → String) (max_time : Nat)
    (k t : Nat) (lst : List String) : List (List String) × Nat × List String :=
  if ht : t < max_time then
    let p := campaignPass (statusOf k) lst 0
    if p.2.length ≤ 0 then ([p.1], t, p.2)
    else
      let r := campaignWaitLoop statusOf max_time (k + 1) (t + 60) p.2
      (p.1 :: r.1, r.2)
  else ([], t, lst)
termination_by max_time - t
decreasing_by omega

/-- A concrete status oracle for exercising the wait loop: campaign `c1`
becomes `ACTIVE` in pass 0, everything is `ACTIVE` from pass 1 on. -/
def demoStatus : Nat → String → String := fun k arn =>
  if k = 0 then (if arn = "c1" then "ACTIVE" else "CREATE IN_PROGRESS") else "ACTIVE"

/-- Ambient state of one notebook run (one Python process): the string
representation of the function object `uuid.uuid1` — fixed for the whole
process, since `generate_random_session_id` stringifies the function without
calling it — and the event tracker id loaded from earlier steps. -/
structure ProcessCtx where
  uuid1_repr : String
  tracking_id : String

/-- `generate_random_session_id` from the campaigns/filters interaction
notebook: `return str(uuid.uuid1)` — the function object is stringified, not
invoked, so the result is the process-wide constant representation. -/
def generate_random_session_id (ctx : ProcessCtx) : String :=
  ctx.uuid1_repr

/-- `session_dict = defaultdict(generate_random_session_id)`, embedded as an
association list from `user_id` to session id. -/
abbrev SessionDict := List (String × String)

/-- Lookup in a `defaultdict`: a missing key is populated by calling the
default factory, here `generate_random_session_id`. Returns the (possibly
extended) dict and the value. -/
def session_dict_get (ctx : ProcessCtx) (d : SessionDict) (user_id : String) :
    SessionDict × String :=
  match d.find? (fun p => p.1 == user_id) with
  | some p => (d, p.2)
  | none => ((user_id, generate_random_session_id ctx) :: d, generate_random_session_id ctx)

/-- The single event built by `log_new_review`. `sentAt` stands for
`datetime.now()`, supplied by the caller's clock. -/
structure PersonalizeEvent where
  eventType : String
  eventValue : Nat
  itemId : String
  sentAt : Nat
  impression : Option (List String)
  recommendationId : Option String

/-- The `put_events` request assembled by `log_new_review`. -/
structure PutEventsRequest where
  trackingId : String
  userId : String
  sessionId : String
  eventList : List PersonalizeEvent

/-- `log_new_review` from the campaigns/filters interaction notebook: looks
up (or creates) the user's session id in `session_dict`, builds the review
event, and sends `put_events`; the embedding returns the updated dict and the
request that is sent. -/
def log_new_review (ctx : ProcessCtx) (d : SessionDict) (now : Nat)
    (user_id : String) (item_id : String) (rating : Nat)
    (recommendation_id : Option String) (impression : Option (List String)) :
    SessionDict × PutEventsRequest :=
  let r := session_dict_get ctx d user_id
  (r.1,
   { trackingId := ctx.tracking_id
     userId := user_id
     sessionId := r.2
     eventList := [{ eventType := "review"
                     eventValue := rating
                     itemId := item_id
                     sentAt := now
                     impression := impression
                     recommendationId := recommendation_id }] })

/-- Every session id stored in the dict is the process constant. -/
def SessionDictConst (ctx : ProcessCtx) (d : SessionDict) : Prop :=
  ∀ p ∈ d, p.2 = ctx.uuid1_repr

end PersonalizePoc

namespace PersonalizePoc

/-- C4 counterexample: on the status string `"FAILED"` — which differs from
`"ACTIVE"` and contains `"FAILED"` as a substring — `is_ds_ready` does not
raise; it returns `None` (continue polling), because its failure branch
matches the substring `"CREATE FAILED"` only. -/
theorem is_ds_ready_not_failure_on_FAILED :
    pyIn "FAILED" "FAILED" = true ∧ "FAILED" ≠ "ACTIVE" ∧
      is_ds_ready "FAILED" = .ok none := by
  decide

/-- C4 (amended): `is_dsg_ready` and `is_batch_job_finished` raise exactly
when the status is not `"ACTIVE"` and contains `"FAILED"` as a substring,
return `True` exactly when the status equals `"ACTIVE"`, and return `None`
otherwise; `is_ds_ready` behaves the same way except that its fatal branch
matches the substring `"CREATE FAILED"` instead of `"FAILED"`. -/
theorem completion_predicate_outcomes (status : String) :
    (raised (is_dsg_ready status) ↔ status ≠ "ACTIVE" ∧ pyIn "FAILED" status = true)
    ∧ (is_dsg_ready status = .ok (some true) ↔ status = "ACTIVE")
    ∧ (is_dsg_ready status = .ok none ↔ status ≠ "ACTIVE" ∧ pyIn "FAILED" status = false)
    ∧ (raised (is_batch_job_finished status) ↔ status ≠ "ACTIVE" ∧ pyIn "FAILED" status = true)
    ∧ (is_batch_job_finished status = .ok (some true) ↔ status = "ACTIVE")
    ∧ (is_batch_job_finished status = .ok none ↔ status ≠ "ACTIVE" ∧ pyIn "FAILED" status = false)
    ∧ (raised (is_ds_ready status) ↔ status ≠ "ACTIVE" ∧ pyIn "CREATE FAILED" status = true)
    ∧ (is_ds_ready status = .ok (some true) ↔ status = "ACTIVE")
    ∧ (is_ds_ready status = .ok none ↔ status ≠ "ACTIVE" ∧ pyIn "CREATE FAILED" status = false) := by
  by_cases hA : status = "ACTIVE"
  · simp [is_dsg_ready, is_ds_ready, is_batch_job_finished, raised, hA]
  · by_cases hF : pyIn "FAILED" status = true <;>
      by_cases hC : pyIn "CREATE FAILED" status = true <;>
      simp [is_dsg_ready, is_ds_ready, is_batch_job_finished, raised, hA, hF, hC]

/-- C10: `get_campaign_arn_by_name` returns the `campaignArn` of the first
campaign whose `name` equals the requested name, and raises `ValueError` if
and only if no campaign in the list has that name; `get_filter_arn_by_name`
satisfies the same first-match / raises-iff-absent property over the filters
list. -/
theorem arn_lookup_first_match_or_raises (campaigns : List Campaign)
    (filters : List PersonalizeFilter) (nm : String) :
    (∀ arn, get_campaign_arn_by_name campaigns nm = .ok arn →
      ∃ l1 c l2, campaigns = l1 ++ c :: l2 ∧ c.name = nm ∧ arn = c.campaignArn ∧
        ∀ x ∈ l1, x.name ≠ nm)
    ∧ (raised (get_campaign_arn_by_name campaigns nm) ↔ ∀ c ∈ campaigns, c.name ≠ nm)
    ∧ (∀ arn, get_filter_arn_by_name filters nm = .ok arn →
      ∃ l1 f l2, filters = l1 ++ f :: l2 ∧ f.name = nm ∧ arn = f.filterArn ∧
        ∀ x ∈ l1, x.name ≠ nm)
    ∧ (raised (get_filter_arn_by_name filters nm) ↔ ∀ f ∈ filters, f.name ≠ nm) := by
  refine ⟨?_, ?_, ?_, ?_⟩
  · intro arn h
    unfold get_campaign_arn_by_name at h
    cases hf : campaigns.find? (fun c => c.name == nm) with
    | none => rw [hf] at h; cases h
    | some c =>
      rw [hf] at h
      obtain ⟨l1, l2, hsplit, hl1, hpc⟩ := find?_split _ _ _ hf
      refine ⟨l1, c, l2, hsplit, by simpa using hpc, by simpa using h.symm, ?_⟩
      intro x hx
      simpa using hl1 x hx
  · unfold get_campaign_arn_by_name
    cases hf : campaigns.find? (fun c => c.name == nm) with
    | none =>
      refine iff_of_true (raised_error _) ?_
      intro c hc heq
      exact (List.find?_eq_none.mp hf c hc) (by simpa using heq)
    | some c =>
      refine iff_of_false (not_raised_ok _) ?_
      intro hall
      exact hall c (List.mem_of_find?_eq_some hf) (by simpa using List.find?_some hf)
  · intro arn h
    unfold get_filter_arn_by_name at h
    cases hf : filters.find? (fun f => f.name == nm) with
    | none => rw [hf] at h; cases h
    | some f =>
      rw [hf] at h
      obtain ⟨l1, l2, hsplit, hl1, hpf⟩ := find?_split _ _ _ hf
      refine ⟨l1, f, l2, hsplit, by simpa using hpf, by simpa using h.symm, ?_⟩
      intro x hx
      simpa using hl1 x hx
  · unfold get_filter_arn_by_name
    cases hf : filters.find? (fun f => f.name == nm) with
    | none =>
      refine iff_of_true (raised_error _) ?_
      intro f hc heq
      exact (List.find?_eq_none.mp hf f hc) (by simpa using heq)
    | some f =>
      refine iff_of_false (not_raised_ok _) ?_
      intro hall
      exact hall f (List.mem_of_find?_eq_some hf) (by simpa using List.find?_some hf)

/-- C10 witness: on a concrete two-campaign, one-filter service listing, the
lookup returns the first match's ARN and the raises-iff-absent equivalence is
inhabited on both sides. -/
theorem arn_lookup_first_match_or_raises_witness :
    ∃ l1 c l2,
      ([⟨"other", "arn:other"⟩, ⟨"personalize-movielens-sims", "arn:sims"⟩,
        ⟨"personalize-movielens-sims", "arn:dup"⟩] : List Campaign) = l1 ++ c :: l2 ∧
      c.name = "personalize-movielens-sims" ∧ "arn:sims" = c.campaignArn ∧
      ∀ x ∈ l1, x.name ≠ "personalize-movielens-sims" :=
  (arn_lookup_first_match_or_raises
    [⟨"other", "arn:other"⟩, ⟨"personalize-movielens-sims", "arn:sims"⟩,
      ⟨"personalize-movielens-sims", "arn:dup"⟩]
    [⟨"by-genre", "arn:genre"⟩] "personalize-movielens-sims").1
    "arn:sims" (by decide)

theorem spinAux_ok_success {σ ε : Type} (producer : Nat → Except ε σ)
    (pred : σ → Outcome) (fmt : σ → String) (poll timeout k : Nat) (s : σ)
    (hk : producer k = .ok s) (hp : pred s = .success) :
    spinAux producer pred fmt poll timeout k = ⟨k + 1, [], .success s⟩ := by
  rw [spinAux.eq_def, hk]
  simp [hp]

theorem spinAux_ok_failed {σ ε : Type} (producer : Nat → Except ε σ)
    (pred : σ → Outcome) (fmt : σ → String) (poll timeout k : Nat) (s : σ)
    (hk : producer k = .ok s) (hp : pred s = .failed) :
    spinAux producer pred fmt poll timeout k = ⟨k + 1, [], .jobFailed s⟩ := by
  rw [spinAux.eq_def, hk]
  simp [hp]

theorem spinAux_producer_error {σ ε : Type} (producer : Nat → Except ε σ)
    (pred : σ → Outcome) (fmt : σ → String) (poll timeout k : Nat) (e : ε)
    (hk : producer k = .error e) :
    spinAux producer pred fmt poll timeout k = ⟨k + 1, [], .producerError e⟩ := by
  rw [spinAux.eq_def, hk]

theorem spinAux_ok_notYet_cont {σ ε : Type} (producer : Nat → Except ε σ)
    (pred : σ → Outcome) (fmt : σ → String) (poll timeout k : Nat) (s : σ)
    (hk : producer k = .ok s) (hp : pred s = .notYet)
    (hg : (k + 1) * poll ≤ timeout) (hpos : 0 < poll) :
    spinAux producer pred fmt poll timeout k =
      ⟨(spinAux producer pred fmt poll timeout (k + 1)).invocations,
       fmt s :: (spinAux producer pred fmt poll timeout (k + 1)).progress,
       (spinAux producer pred fmt poll timeout (k + 1)).result⟩ := by
  rw [spinAux.eq_def, hk]
  simp [hp, hg, hpos]

theorem spinAux_ok_notYet_stop {σ ε : Type} (producer : Nat → Except ε σ)
    (pred : σ → Outcome) (fmt : σ → String) (poll timeout k : Nat) (s : σ)
    (hk : producer k = .ok s) (hp : pred s = .notYet)
    (hng : ¬((k + 1) * poll ≤ timeout ∧ 0 < poll)) :
    spinAux producer pred fmt poll timeout k = ⟨k + 1, [fmt s], .timedOut s⟩ := by
  rw [spinAux.eq_def, hk]
  simp [hp, hng]

theorem spinAux_prefix_notYet {σ ε : Type} (producer : Nat → Except ε σ)
    (pred : σ → Outcome) (fmt : σ → String) (poll timeout : Nat)
    (hpos : 0 < poll) (s : Nat → σ) :
    ∀ (N k : Nat), (k + N) * poll ≤ timeout →
      (∀ i, i < N → producer (k + i) = .ok (s (k + i))) →
      (∀ i, i < N → pred (s (k + i)) = .notYet) →
      spinAux producer pred fmt poll timeout k =
        ⟨(spinAux producer pred fmt poll timeout (k + N)).invocations,
         ((List.range N).map fun i => fmt (s (k + i))) ++
           (spinAux producer pred fmt poll timeout (k + N)).progress,
         (spinAux producer pred fmt poll timeout (k + N)).result⟩ := by
  intro N
  induction N with
  | zero => intro k _ _ _; simp
  | succ N ih =>
    intro k hto hprod hpred
    have h0 : producer k = .ok (s k) := by simpa using hprod 0 (Nat.succ_pos N)
    have hp0 : pred (s k) = .notYet := by simpa using hpred 0 (Nat.succ_pos N)
    have hg : (k + 1) * poll ≤ timeout :=
      le_trans (Nat.mul_le_mul_right poll (by omega)) hto
    rw [spinAux_ok_notYet_cont producer pred fmt poll timeout k (s k) h0 hp0 hg hpos]
    have ih' := ih (k + 1)
      (by rw [show k + 1 + N = k + (N + 1) from by omega]; exact hto)
      (fun i hi => by
        rw [show k + 1 + i = k + (i + 1) from by omega]
        exact hprod (i + 1) (by omega))
      (fun i hi => by
        rw [show k + 1 + i = k + (i + 1) from by omega]
        exact hpred (i + 1) (by omega))
    rw [ih', show k + 1 + N = k + (N + 1) from by omega]
    have hmap : (List.range (N + 1)).map (fun i => fmt (s (k + i))) =
        fmt (s k) :: (List.range N).map (fun i => fmt (s (k + 1 + i))) := by
      rw [List.range_succ_eq_map, List.map_cons, List.map_map]
      congr 1
      apply List.map_congr_left
      intro a _
      have : k + (a + 1) = k + 1 + a := by omega
      simp [Function.comp, this]
    rw [hmap]
    simp

theorem spinAux_timeout_aux {σ ε : Type} (producer : Nat → Except ε σ)
    (pred : σ → Outcome) (fmt : σ → String) (poll timeout : Nat)
    (hpos : 0 < poll) (s : Nat → σ)
    (hprod : ∀ i, producer i = .ok (s i)) (hpred : ∀ i, pred (s i) = .notYet)
    (k : Nat) (hk : k * poll ≤ timeout) :
    k < (spinAux producer pred fmt poll timeout k).invocations
    ∧ timeout < (spinAux producer pred fmt poll timeout k).invocations * poll
    ∧ (spinAux producer pred fmt poll timeout k).invocations * poll ≤ timeout + poll
    ∧ (spinAux producer pred fmt poll timeout k).result =
        .timedOut (s ((spinAux producer pred fmt poll timeout k).invocations - 1)) := by
  by_cases hg : (k + 1) * poll ≤ timeout
  · have hstep := spinAux_ok_notYet_cont producer pred fmt poll timeout k (s k)
      (hprod k) (hpred k) hg hpos
    obtain ⟨h1, h2, h3, h4⟩ := spinAux_timeout_aux producer pred fmt poll timeout hpos s
      hprod hpred (k + 1) hg
    rw [hstep]
    dsimp only
    exact ⟨by omega, h2, h3, h4⟩
  · have hg' : timeout < (k + 1) * poll := Nat.not_le.mp hg
    rw [spinAux_ok_notYet_stop producer pred fmt poll timeout k (s k)
      (hprod k) (hpred k) (fun hand => hg hand.1)]
    dsimp only
    refine ⟨by omega, hg', ?_, by simp⟩
    have : (k + 1) * poll = k * poll + poll := by rw [Nat.succ_mul]
    omega
termination_by timeout - k * poll
decreasing_by
  simp only [Nat.succ_mul] at hg ⊢
  omega

theorem spinAux_progress_snapshot {σ ε : Type} (producer : Nat → Except ε σ)
    (pred : σ → Outcome) (fmt : σ → String) (poll timeout : Nat)
    (s : Nat → σ) (hprod : ∀ i, producer i = .ok (s i)) (k j : Nat)
    (hj : j < (spinAux producer pred fmt poll timeout k).progress.length) :
    (spinAux producer pred fmt poll timeout k).progress.getD j "" = fmt (s (k + j))
    ∧ pred (s (k + j)) = .notYet := by
  cases hp : pred (s k) with
  | success =>
    rw [spinAux_ok_success producer pred fmt poll timeout k (s k) (hprod k) hp] at hj
    simp at hj
  | failed =>
    rw [spinAux_ok_failed producer pred fmt poll timeout k (s k) (hprod k) hp] at hj
    simp at hj
  | notYet =>
    by_cases hg : (k + 1) * poll ≤ timeout ∧ 0 < poll
    · have hstep := spinAux_ok_notYet_cont producer pred fmt poll timeout k (s k)
        (hprod k) hp hg.1 hg.2
      rw [hstep] at hj ⊢
      cases j with
      | zero => exact ⟨by simp, by simpa using hp⟩
      | succ j =>
        simp only [List.length_cons, Nat.succ_lt_succ_iff] at hj
        obtain ⟨ha, hb⟩ := spinAux_progress_snapshot producer pred fmt poll timeout s
          hprod (k + 1) j hj
        have hidx : k + 1 + j = k + (j + 1) := by omega
        rw [hidx] at ha hb
        exact ⟨by simpa using ha, hb⟩
    · rw [spinAux_ok_notYet_stop producer pred fmt poll timeout k (s k)
        (hprod k) hp hg] at hj ⊢
      simp only [List.length_cons, List.length_nil] at hj
      have hj0 : j = 0 := by omega
      subst hj0
      exact ⟨by simp, by simpa using hp⟩
termination_by timeout - k * poll
decreasing_by
  have hg1 := hg.1
  simp only [Nat.succ_mul] at hg1 ⊢
  omega

/-- C1 (spec-modelled; `util/progress.py` is absent from the corpus): when
the completion predicate classifies the first `N − 1` snapshots as
not-yet-finished and the `N`-th as finished-successfully — and the run
reaches the `N`-th invocation before the timeout — the spinner invokes the
status producer exactly `N` times (the first immediately, one fetch per
iteration, fetches sequential by construction) and returns normally with the
`N`-th snapshot, having emitted one progress line per non-terminal
iteration. -/
theorem polling_spinner_success_run {σ ε : Type} (fn_poll_result : Nat → Except ε σ)
    (fn_is_finished : σ → Outcome) (fn_stringify_result : σ → String)
    (poll_secs timeout_secs N : Nat) (s : Nat → σ)
    (hpos : 0 < poll_secs) (hN : 0 < N) (hto : (N - 1) * poll_secs ≤ timeout_secs)
    (hprod : ∀ i, i < N → fn_poll_result i = .ok (s i))
    (hnot : ∀ i, i < N - 1 → fn_is_finished (s i) = .notYet)
    (hsucc : fn_is_finished (s (N - 1)) = .success) :
    (polling_spinner fn_poll_result fn_is_finished fn_stringify_result poll_secs
        timeout_secs).invocations = N
    ∧ (polling_spinner fn_poll_result fn_is_finished fn_stringify_result poll_secs
        timeout_secs).result = .success (s (N - 1))
    ∧ (polling_spinner fn_poll_result fn_is_finished fn_stringify_result poll_secs
        timeout_secs).progress =
        (List.range (N - 1)).map fun i => fn_stringify_result (s i) := by
  have hpre := spinAux_prefix_notYet fn_poll_result fn_is_finished fn_stringify_result
    poll_secs timeout_secs hpos s (N - 1) 0
    (by simpa using hto)
    (fun i hi => by simpa using hprod i (by omega))
    (fun i hi => by simpa using hnot i hi)
  simp only [Nat.zero_add] at hpre
  have hlast := spinAux_ok_success fn_poll_result fn_is_finished fn_stringify_result
    poll_secs timeout_secs (N - 1) (s (N - 1)) (hprod (N - 1) (by omega)) hsucc
  unfold polling_spinner
  rw [hpre, hlast]
  have hNN : N - 1 + 1 = N := by omega
  simp [hNN]

/-- C1 witness: poll interval 1, timeout 5, snapshots 0,1,2 not yet finished
and snapshot 3 successful: 4 invocations, normal return, 3 progress lines. -/
theorem polling_spinner_success_run_witness :
    (polling_spinner (fun i => (Except.ok i : Except Unit Nat))
      (fun n => if n < 3 then Outcome.notYet else Outcome.success)
      (fun n => toString n) 1 5).invocations = 4
    ∧ (polling_spinner (fun i => (Except.ok i : Except Unit Nat))
      (fun n => if n < 3 then Outcome.notYet else Outcome.success)
      (fun n => toString n) 1 5).result = .success 3
    ∧ (polling_spinner (fun i => (Except.ok i : Except Unit Nat))
      (fun n => if n < 3 then Outcome.notYet else Outcome.success)
      (fun n => toString n) 1 5).progress = (List.range 3).map fun i => toString i := by
  have h := polling_spinner_success_run (fun i => (Except.ok i : Except Unit Nat))
    (fun n => if n < 3 then Outcome.notYet else Outcome.success)
    (fun n => toString n) 1 5 4 (fun i => i)
    (by decide) (by decide) (by decide)
    (fun i _ => rfl)
    (fun i hi => if_pos (show i < 3 by omega))
    (by decide)
  simpa using h

/-- C2 (spec-modelled): when the completion predicate reports finished with
fatal failure on invocation `K` — the earlier snapshots being non-terminal
and the run reaching invocation `K` before the timeout — the spinner performs
exactly `K` invocations and fails with `JobFailed` carrying the `K`-th
snapshot; no retry happens after the failure. -/
theorem polling_spinner_jobFailed_run {σ ε : Type} (fn_poll_result : Nat → Except ε σ)
    (fn_is_finished : σ → Outcome) (fn_stringify_result : σ → String)
    (poll_secs timeout_secs K : Nat) (s : Nat → σ)
    (hpos : 0 < poll_secs) (hK : 0 < K) (hto : (K - 1) * poll_secs ≤ timeout_secs)
    (hprod : ∀ i, i < K → fn_poll_result i = .ok (s i))
    (hnot : ∀ i, i < K - 1 → fn_is_finished (s i) = .notYet)
    (hfail : fn_is_finished (s (K - 1)) = .failed) :
    (polling_spinner fn_poll_result fn_is_finished fn_stringify_result poll_secs
        timeout_secs).invocations = K
    ∧ (polling_spinner fn_poll_result fn_is_finished fn_stringify_result poll_secs
        timeout_secs).result = .jobFailed (s (K - 1)) := by
  have hpre := spinAux_prefix_notYet fn_poll_result fn_is_finished fn_stringify_result
    poll_secs timeout_secs hpos s (K - 1) 0
    (by simpa using hto)
    (fun i hi => by simpa using hprod i (by omega))
    (fun i hi => by simpa using hnot i hi)
  simp only [Nat.zero_add] at hpre
  have hlast := spinAux_ok_failed fn_poll_result fn_is_finished fn_stringify_result
    poll_secs timeout_secs (K - 1) (s (K - 1)) (hprod (K - 1) (by omega)) hfail
  unfold polling_spinner
  rw [hpre, hlast]
  have hKK : K - 1 + 1 = K := by omega
  simp [hKK]

/-- C2 witness: snapshots 0 and 1 not yet finished, snapshot 2 a fatal
failure: exactly 3 invocations and `JobFailed` carrying snapshot 2. -/
theorem polling_spinner_jobFailed_run_witness :
    (polling_spinner (fun i => (Except.ok i : Except Unit Nat))
      (fun n => if n < 2 then Outcome.notYet else Outcome.failed)
      (fun n => toString n) 1 5).invocations = 3
    ∧ (polling_spinner (fun i => (Except.ok i : Except Unit Nat))
      (fun n => if n < 2 then Outcome.notYet else Outcome.failed)
      (fun n => toString n) 1 5).result = .jobFailed 2 := by
  have h := polling_spinner_jobFailed_run (fun i => (Except.ok i : Except Unit Nat))
    (fun n => if n < 2 then Outcome.notYet else Outcome.failed)
    (fun n => toString n) 1 5 3 (fun i => i)
    (by decide) (by decide) (by decide)
    (fun i _ => rfl)
    (fun i hi => if_pos (show i < 2 by omega))
    (by decide)
  simpa using h

/-- C3 (spec-modelled): if the completion predicate never reports a terminal
outcome, the spinner still terminates: it raises `PollingTimedOut` carrying
the last snapshot, after at least one invocation, with a total elapsed time
(`invocations * poll_secs` in the model, where each iteration costs one poll
interval of sleep) strictly past the timeout but overrunning it by at most
one poll interval. -/
theorem polling_spinner_timeout_run {σ ε : Type} (fn_poll_result : Nat → Except ε σ)
    (fn_is_finished : σ → Outcome) (fn_stringify_result : σ → String)
    (poll_secs timeout_secs : Nat) (s : Nat → σ)
    (hpos : 0 < poll_secs)
    (hprod : ∀ i, fn_poll_result i = .ok (s i))
    (hnever : ∀ i, fn_is_finished (s i) = .notYet) :
    1 ≤ (polling_spinner fn_poll_result fn_is_finished fn_stringify_result poll_secs
        timeout_secs).invocations
    ∧ (polling_spinner fn_poll_result fn_is_finished fn_stringify_result poll_secs
        timeout_secs).result =
        .timedOut (s ((polling_spinner fn_poll_result fn_is_finished fn_stringify_result
          poll_secs timeout_secs).invocations - 1))
    ∧ timeout_secs < (polling_spinner fn_poll_result fn_is_finished fn_stringify_result
        poll_secs timeout_secs).invocations * poll_secs
    ∧ (polling_spinner fn_poll_result fn_is_finished fn_stringify_result poll_secs
        timeout_secs).invocations * poll_secs ≤ timeout_secs + poll_secs := by
  have h := spinAux_timeout_aux fn_poll_result fn_is_finished fn_stringify_result
    poll_secs timeout_secs hpos s hprod hnever 0 (by simp)
  unfold polling_spinner
  exact ⟨h.1, h.2.2.2, h.2.1, h.2.2.1⟩

/-- C3 witness: poll interval 1, timeout 3, never-finishing predicate: the
spinner times out after finitely many invocations, overrunning by at most one
interval. -/
theorem polling_spinner_timeout_run_witness :
    1 ≤ (polling_spinner (fun i => (Except.ok i : Except Unit Nat))
      (fun _ => Outcome.notYet) (fun n => toString n) 1 3).invocations
    ∧ (polling_spinner (fun i => (Except.ok i : Except Unit Nat))
      (fun _ => Outcome.notYet) (fun n => toString n) 1 3).result =
        .timedOut ((polling_spinner (fun i => (Except.ok i : Except Unit Nat))
          (fun _ => Outcome.notYet) (fun n => toString n) 1 3).invocations - 1)
    ∧ 3 < (polling_spinner (fun i => (Except.ok i : Except Unit Nat))
      (fun _ => Outcome.notYet) (fun n => toString n) 1 3).invocations * 1
    ∧ (polling_spinner (fun i => (Except.ok i : Except Unit Nat))
      (fun _ => Outcome.notYet) (fun n => toString n) 1 3).invocations * 1 ≤ 3 + 1 :=
  polling_spinner_timeout_run (fun i => (Except.ok i : Except Unit Nat))
    (fun _ => Outcome.notYet) (fun n => toString n) 1 3 (fun i => i)
    (by decide) (fun i => rfl) (fun i => rfl)

/-- C7 (spec-modelled): if the status producer itself raises on invocation
`K` (the earlier snapshots being non-terminal and the run reaching invocation
`K`), the spinner stops at once with that same error: exactly `K` producer
invocations, and the result is the producer's error unwrapped — neither
`JobFailed` nor `PollingTimedOut`. -/
theorem polling_spinner_producer_error_run {σ ε : Type} (fn_poll_result : Nat → Except ε σ)
    (fn_is_finished : σ → Outcome) (fn_stringify_result : σ → String)
    (poll_secs timeout_secs K : Nat) (s : Nat → σ) (e : ε)
    (hpos : 0 < poll_secs) (hK : 0 < K) (hto : (K - 1) * poll_secs ≤ timeout_secs)
    (hprod : ∀ i, i < K - 1 → fn_poll_result i = .ok (s i))
    (hnot : ∀ i, i < K - 1 → fn_is_finished (s i) = .notYet)
    (herr : fn_poll_result (K - 1) = .error e) :
    (polling_spinner fn_poll_result fn_is_finished fn_stringify_result poll_secs
        timeout_secs).invocations = K
    ∧ (polling_spinner fn_poll_result fn_is_finished fn_stringify_result poll_secs
        timeout_secs).result = .producerError e := by
  have hpre := spinAux_prefix_notYet fn_poll_result fn_is_finished fn_stringify_result
    poll_secs timeout_secs hpos s (K - 1) 0
    (by simpa using hto)
    (fun i hi => by simpa using hprod i hi)
    (fun i hi => by simpa using hnot i hi)
  simp only [Nat.zero_add] at hpre
  have hlast := spinAux_producer_error fn_poll_result fn_is_finished fn_stringify_result
    poll_secs timeout_secs (K - 1) e herr
  unfold polling_spinner
  rw [hpre, hlast]
  have hKK : K - 1 + 1 = K := by omega
  simp [hKK]

/-- C7 witness: the producer succeeds for the first two invocations and
raises on the third: the run ends at 3 invocations with the producer's own
error. -/
theorem polling_spinner_producer_error_run_witness :
    (polling_spinner (fun i => if i < 2 then (Except.ok i : Except String Nat)
        else .error "ConnectionError")
      (fun _ => Outcome.notYet) (fun n => toString n) 1 9).invocations = 3
    ∧ (polling_spinner (fun i => if i < 2 then (Except.ok i : Except String Nat)
        else .error "ConnectionError")
      (fun _ => Outcome.notYet) (fun n => toString n) 1 9).result =
        .producerError "ConnectionError" := by
  have h := polling_spinner_producer_error_run
    (fun i => if i < 2 then (Except.ok i : Except String Nat) else .error "ConnectionError")
    (fun _ => Outcome.notYet) (fun n => toString n) 1 9 3 (fun i => i) "ConnectionError"
    (by decide) (by decide) (by decide)
    (fun i hi => if_pos (show i < 2 by omega))
    (fun i _ => rfl)
    (by decide)
  simpa using h

/-- C6 (spec-modelled): in every iteration the predicate and the formatter
see the one snapshot produced by that iteration's single fetch: the `j`-th
progress line equals the formatter applied to exactly the snapshot
`fn_poll_result` returned at invocation `j`, and the predicate classified
that same snapshot (as not-yet-finished) — no re-fetch happens between
classification and display.  The snapshot type is abstract, so this covers
the multi-job call sites, where the snapshot is the sequence of descriptions
the lazy map iterator yields. -/
theorem polling_spinner_same_snapshot {σ ε : Type} (fn_poll_result : Nat → Except ε σ)
    (fn_is_finished : σ → Outcome) (fn_stringify_result : σ → String)
    (poll_secs timeout_secs : Nat) (s : Nat → σ)
    (hprod : ∀ i, fn_poll_result i = .ok (s i)) (j : Nat)
    (hj : j < (polling_spinner fn_poll_result fn_is_finished fn_stringify_result
      poll_secs timeout_secs).progress.length) :
    (polling_spinner fn_poll_result fn_is_finished fn_stringify_result poll_secs
      timeout_secs).progress.getD j "" = fn_stringify_result (s j)
    ∧ fn_is_finished (s j) = .notYet := by
  have h := spinAux_progress_snapshot fn_poll_result fn_is_finished fn_stringify_result
    poll_secs timeout_secs s hprod 0 j hj
  simpa using h

/-- C6 witness: a two-job import snapshot (a list of descriptions, standing
for what the lazy iterator yields) is fetched once; the first progress line
is the formatter applied to that very snapshot, which the predicate
classified as not yet finished. -/
theorem polling_spinner_same_snapshot_witness :
    (polling_spinner
      (fun k => (Except.ok (if k = 0
        then [ImportJobDesc.mk "CREATE PENDING" "a", ImportJobDesc.mk "CREATE PENDING" "b"]
        else [ImportJobDesc.mk "ACTIVE" "a", ImportJobDesc.mk "ACTIVE" "b"])
          : Except Unit (List ImportJobDesc)))
      (fun descs => if descs.all (fun d => d.status == "ACTIVE")
        then Outcome.success else Outcome.notYet)
      (fun descs => toString descs.length ++ " imports in progress") 30 3600).progress.getD 0 ""
      = "2 imports in progress"
    ∧ (if ([ImportJobDesc.mk "CREATE PENDING" "a",
        ImportJobDesc.mk "CREATE PENDING" "b"].all (fun d => d.status == "ACTIVE"))
        then Outcome.success else Outcome.notYet) = Outcome.notYet := by
  have hrun : polling_spinner
      (fun k => (Except.ok (if k = 0
        then [ImportJobDesc.mk "CREATE PENDING" "a", ImportJobDesc.mk "CREATE PENDING" "b"]
        else [ImportJobDesc.mk "ACTIVE" "a", ImportJobDesc.mk "ACTIVE" "b"])
          : Except Unit (List ImportJobDesc)))
      (fun descs => if descs.all (fun d => d.status == "ACTIVE")
        then Outcome.success else Outcome.notYet)
      (fun descs => toString descs.length ++ " imports in progress") 30 3600 =
      ⟨2, ["2 imports in progress"],
        .success [ImportJobDesc.mk "ACTIVE" "a", ImportJobDesc.mk "ACTIVE" "b"]⟩ := by
    unfold polling_spinner
    rw [spinAux_ok_notYet_cont _ _ _ _ _ 0
      [ImportJobDesc.mk "CREATE PENDING" "a", ImportJobDesc.mk "CREATE PENDING" "b"]
      rfl (by decide) (by decide) (by decide)]
    rw [spinAux_ok_success _ _ _ _ _ 1
      [ImportJobDesc.mk "ACTIVE" "a", ImportJobDesc.mk "ACTIVE" "b"]
      rfl (by decide)]
    rfl
  have h := polling_spinner_same_snapshot
    (fun k => (Except.ok (if k = 0
      then [ImportJobDesc.mk "CREATE PENDING" "a", ImportJobDesc.mk "CREATE PENDING" "b"]
      else [ImportJobDesc.mk "ACTIVE" "a", ImportJobDesc.mk "ACTIVE" "b"])
        : Except Unit (List ImportJobDesc)))
    (fun descs => if descs.all (fun d => d.status == "ACTIVE")
      then Outcome.success else Outcome.notYet)
    (fun descs => toString descs.length ++ " imports in progress") 30 3600
    (fun k => if k = 0
      then [ImportJobDesc.mk "CREATE PENDING" "a", ImportJobDesc.mk "CREATE PENDING" "b"]
      else [ImportJobDesc.mk "ACTIVE" "a", ImportJobDesc.mk "ACTIVE" "b"])
    (fun i => rfl) 0
    (by rw [hrun]; simp)
  rw [hrun] at h ⊢
  exact ⟨h.1.trans rfl, h.2⟩

theorem campaignPass_stop (f : String → String) (lst : List String) (i : Nat)
    (hi : ¬ i < lst.length) : campaignPass f lst i = ([], lst) := by
  rw [campaignPass.eq_def, dif_neg hi]

theorem campaignPass_step_term (f : String → String) (lst : List String) (i : Nat)
    (h : i < lst.length)
    (hterm : f (lst.get ⟨i, h⟩) = "ACTIVE" ∨ f (lst.get ⟨i, h⟩) = "CREATE FAILED") :
    campaignPass f lst i =
      (lst.get ⟨i, h⟩ :: (campaignPass f (lst.erase (lst.get ⟨i, h⟩)) (i + 1)).1,
       (campaignPass f (lst.erase (lst.get ⟨i, h⟩)) (i + 1)).2) := by
  rw [campaignPass.eq_def, dif_pos h]
  rcases hterm with h1 | h1
  · simp only [List.get_eq_getElem] at h1 ⊢
    simp [h1]
  · have h2 : ¬ f (lst.get ⟨i, h⟩) = "ACTIVE" := by rw [h1]; decide
    simp only [List.get_eq_getElem] at h1 h2 ⊢
    simp [h1, h2]

theorem campaignPass_step_cont (f : String → String) (lst : List String) (i : Nat)
    (h : i < lst.length)
    (h1 : ¬ f (lst.get ⟨i, h⟩) = "ACTIVE") (h2 : ¬ f (lst.get ⟨i, h⟩) = "CREATE FAILED") :
    campaignPass f lst i =
      (lst.get ⟨i, h⟩ :: (campaignPass f lst (i + 1)).1,
       (campaignPass f lst (i + 1)).2) := by
  rw [campaignPass.eq_def, dif_pos h]
  simp only [List.get_eq_getElem] at h1 h2 ⊢
  simp [h1, h2]

theorem campaignPass_subset (f : String → String) (lst : List String) (i : Nat) :
    (campaignPass f lst i).1 ⊆ lst ∧ (campaignPass f lst i).2 ⊆ lst := by
  by_cases h : i < lst.length
  · by_cases ht : f (lst.get ⟨i, h⟩) = "ACTIVE" ∨ f (lst.get ⟨i, h⟩) = "CREATE FAILED"
    · rw [campaignPass_step_term f lst i h ht]
      obtain ⟨ih1, ih2⟩ := campaignPass_subset f (lst.erase (lst.get ⟨i, h⟩)) (i + 1)
      dsimp only
      constructor
      · exact List.cons_subset.mpr
          ⟨List.get_mem lst i h, ih1.trans (List.erase_subset _ _)⟩
      · exact ih2.trans (List.erase_subset _ _)
    · push_neg at ht
      rw [campaignPass_step_cont f lst i h ht.1 ht.2]
      obtain ⟨ih1, ih2⟩ := campaignPass_subset f lst (i + 1)
      dsimp only
      exact ⟨List.cons_subset.mpr ⟨List.get_mem lst i h, ih1⟩, ih2⟩
  · rw [campaignPass_stop f lst i h]
    exact ⟨by simp, fun x hx => hx⟩
termination_by lst.length - i
decreasing_by
  all_goals
    first
    | omega
    | (have hh := List.length_erase_of_mem (List.get_mem lst i h); omega)

theorem campaignPass_nodup (f : String → String) (lst : List String) (i : Nat)
    (hnd : lst.Nodup) : (campaignPass f lst i).2.Nodup := by
  by_cases h : i < lst.length
  · by_cases ht : f (lst.get ⟨i, h⟩) = "ACTIVE" ∨ f (lst.get ⟨i, h⟩) = "CREATE FAILED"
    · rw [campaignPass_step_term f lst i h ht]
      exact campaignPass_nodup f (lst.erase (lst.get ⟨i, h⟩)) (i + 1) (hnd.erase _)
    · push_neg at ht
      rw [campaignPass_step_cont f lst i h ht.1 ht.2]
      exact campaignPass_nodup f lst (i + 1) hnd
  · rw [campaignPass_stop f lst i h]
    exact hnd
termination_by lst.length - i
decreasing_by
  all_goals
    first
    | omega
    | (have hh := List.length_erase_of_mem (List.get_mem lst i h); omega)

theorem campaignPass_terminal_removed (f : String → String) (lst : List String) (i : Nat)
    (hnd : lst.Nodup) (a : String)
    (hterm : f a = "ACTIVE" ∨ f a = "CREATE FAILED")
    (ha : a ∈ (campaignPass f lst i).1) :
    a ∉ (campaignPass f lst i).2 := by
  by_cases h : i < lst.length
  · by_cases ht : f (lst.get ⟨i, h⟩) = "ACTIVE" ∨ f (lst.get ⟨i, h⟩) = "CREATE FAILED"
    · rw [campaignPass_step_term f lst i h ht] at ha ⊢
      dsimp only at ha ⊢
      rcases List.mem_cons.mp ha with heq | hrest
      · rw [← heq]
        intro hmem
        have hsub := (campaignPass_subset f (lst.erase a) (i + 1)).2 hmem
        exact ((List.Nodup.mem_erase_iff hnd).mp hsub).1 rfl
      · exact campaignPass_terminal_removed f (lst.erase (lst.get ⟨i, h⟩)) (i + 1)
          (hnd.erase _) a hterm hrest
    · push_neg at ht
      rw [campaignPass_step_cont f lst i h ht.1 ht.2] at ha ⊢
      dsimp only at ha ⊢
      rcases List.mem_cons.mp ha with heq | hrest
      · rcases hterm with h1 | h1
        · exact absurd (heq ▸ h1) ht.1
        · exact absurd (heq ▸ h1) ht.2
      · exact campaignPass_terminal_removed f lst (i + 1) hnd a hterm hrest
  · rw [campaignPass_stop f lst i h] at ha
    simp at ha
termination_by lst.length - i
decreasing_by
  all_goals
    first
    | omega
    | (have hh := List.length_erase_of_mem (List.get_mem lst i h); omega)

theorem campaignWaitLoop_stop (f : Nat → String → String) (m k t : Nat)
    (lst : List String) (ht : ¬ t < m) :
    campaignWaitLoop f m k t lst = ([], t, lst) := by
  rw [campaignWaitLoop.eq_def, dif_neg ht]

theorem campaignWaitLoop_break (f : Nat → String → String) (m k t : Nat)
    (lst : List String) (ht : t < m) (hb : (campaignPass (f k) lst 0).2 = []) :
    campaignWaitLoop f m k t lst = ([(campaignPass (f k) lst 0).1], t, []) := by
  rw [campaignWaitLoop.eq_def, dif_pos ht]
  simp [hb]

theorem campaignWaitLoop_cont (f : Nat → String → String) (m k t : Nat)
    (lst : List String) (ht : t < m) (hb : (campaignPass (f k) lst 0).2 ≠ []) :
    campaignWaitLoop f m k t lst =
      ((campaignPass (f k) lst 0).1 ::
        (campaignWaitLoop f m (k + 1) (t + 60) (campaignPass (f k) lst 0).2).1,
       (campaignWaitLoop f m (k + 1) (t + 60) (campaignPass (f k) lst 0).2).2) := by
  rw [campaignWaitLoop.eq_def, dif_pos ht]
  have hlen : ¬ (campaignPass (f k) lst 0).2.length ≤ 0 := by
    simp [Nat.le_zero, List.length_eq_zero, hb]
  simp [hlen]

theorem campaignWaitLoop_described_mem (f : Nat → String → String) (m k t : Nat)
    (lst : List String) (j : Nat) (a : String)
    (ha : a ∈ (campaignWaitLoop f m k t lst).1.getD j []) : a ∈ lst := by
  by_cases ht : t < m
  · by_cases hb : (campaignPass (f k) lst 0).2 = []
    · rw [campaignWaitLoop_break f m k t lst ht hb] at ha
      cases j with
      | zero => exact (campaignPass_subset (f k) lst 0).1 (by simpa using ha)
      | succ j => simp [List.getD_cons_succ] at ha
    · rw [campaignWaitLoop_cont f m k t lst ht hb] at ha
      dsimp only at ha
      cases j with
      | zero => exact (campaignPass_subset (f k) lst 0).1 (by simpa using ha)
      | succ j =>
        have hmem := campaignWaitLoop_described_mem f m (k + 1) (t + 60)
          (campaignPass (f k) lst 0).2 j a (by simpa using ha)
        exact (campaignPass_subset (f k) lst 0).2 hmem
  · rw [campaignWaitLoop_stop f m k t lst ht] at ha
    simp at ha
termination_by m - t
decreasing_by omega

theorem campaignWaitLoop_no_repoll_aux (f : Nat → String → String) (m k t : Nat)
    (lst : List String) (hnd : lst.Nodup) :
    (∀ j a, a ∈ (campaignWaitLoop f m k t lst).1.getD j [] →
      f (k + j) a = "ACTIVE" ∨ f (k + j) a = "CREATE FAILED" →
      ∀ jj, j < jj → a ∉ (campaignWaitLoop f m k t lst).1.getD jj [])
    ∧ ((campaignWaitLoop f m k t lst).2.2 = []
        ∨ m ≤ (campaignWaitLoop f m k t lst).2.1) := by
  by_cases ht : t < m
  · by_cases hb : (campaignPass (f k) lst 0).2 = []
    · rw [campaignWaitLoop_break f m k t lst ht hb]
      constructor
      · intro j a ha hterm jj hij
        cases jj with
        | zero => omega
        | succ jj => simp [List.getD_cons_succ]
      · left; rfl
    · rw [campaignWaitLoop_cont f m k t lst ht hb]
      obtain ⟨ihA, ihB⟩ := campaignWaitLoop_no_repoll_aux f m (k + 1) (t + 60)
        (campaignPass (f k) lst 0).2 (campaignPass_nodup (f k) lst 0 hnd)
      dsimp only
      constructor
      · intro j a ha hterm jj hij
        cases j with
        | zero =>
          have hterm0 : f k a = "ACTIVE" ∨ f k a = "CREATE FAILED" := by
            simpa using hterm
          have hnotp2 : a ∉ (campaignPass (f k) lst 0).2 :=
            campaignPass_terminal_removed (f k) lst 0 hnd a hterm0 (by simpa using ha)
          cases jj with
          | zero => omega
          | succ jj =>
            intro hmem
            exact hnotp2 (campaignWaitLoop_described_mem f m (k + 1) (t + 60)
              (campaignPass (f k) lst 0).2 jj a (by simpa using hmem))
        | succ j =>
          have ha' : a ∈ (campaignWaitLoop f m (k + 1) (t + 60)
              (campaignPass (f k) lst 0).2).1.getD j [] := by simpa using ha
          have hterm' : f (k + 1 + j) a = "ACTIVE" ∨ f (k + 1 + j) a = "CREATE FAILED" := by
            rw [show k + 1 + j = k + (j + 1) from by omega]
            exact hterm
          cases jj with
          | zero => omega
          | succ jj =>
            have hres := ihA j a ha' hterm' jj (by omega)
            simpa using hres
      · exact ihB
  · rw [campaignWaitLoop_stop f m k t lst ht]
    constructor
    · intro j a ha _ jj _
      simp at ha
    · right
      simpa using Nat.not_lt.mp ht
termination_by m - t
decreasing_by omega

/-- C8: in the campaign-deployment wait loop, once a campaign's status has
been observed as `"ACTIVE"` or `"CREATE FAILED"` in some pass, that campaign
is removed from `in_progress_campaigns` and `describe_campaign` is never
invoked for it in any later pass (given distinct campaign ARNs, as in the
notebook); and the loop exits exactly by `in_progress_campaigns` becoming
empty or the deadline (3 hours for `max_time = 3*60*60`) passing. -/
theorem campaign_wait_no_repoll (statusOf : Nat → String → String) (max_time : Nat)
    (lst : List String) (hnd : lst.Nodup) (a : String) (ki kj : Nat)
    (hterm : statusOf ki a = "ACTIVE" ∨ statusOf ki a = "CREATE FAILED")
    (ha : a ∈ (campaignWaitLoop statusOf max_time 0 0 lst).1.getD ki [])
    (hij : ki < kj) :
    a ∉ (campaignWaitLoop statusOf max_time 0 0 lst).1.getD kj []
    ∧ ((campaignWaitLoop statusOf max_time 0 0 lst).2.2 = []
        ∨ max_time ≤ (campaignWaitLoop statusOf max_time 0 0 lst).2.1) := by
  obtain ⟨hA, hB⟩ := campaignWaitLoop_no_repoll_aux statusOf max_time 0 0 lst hnd
  exact ⟨hA ki a ha (by simpa using hterm) kj hij, hB⟩

/-- C8 witness: campaigns `c1`, `c2` with a 180-second budget; `c1` is
observed `ACTIVE` in pass 0 (and `c2`, skipped in pass 0 by the
remove-while-iterating shift, is observed `ACTIVE` in pass 1): `c1` is never
described again and the loop exits with the list empty. -/
theorem campaign_wait_no_repoll_witness :
    "c1" ∉ (campaignWaitLoop demoStatus 180 0 0 ["c1", "c2"]).1.getD 1 []
    ∧ ((campaignWaitLoop demoStatus 180 0 0 ["c1", "c2"]).2.2 = []
        ∨ 180 ≤ (campaignWaitLoop demoStatus 180 0 0 ["c1", "c2"]).2.1) := by
  have hp0 : campaignPass (demoStatus 0) ["c1", "c2"] 0 = (["c1"], ["c2"]) := by
    rw [campaignPass_step_term (demoStatus 0) ["c1", "c2"] 0 (by norm_num) (Or.inl rfl)]
    rw [show (["c1", "c2"].erase (["c1", "c2"].get ⟨0, by norm_num⟩)) = ["c2"] from rfl]
    rw [campaignPass_stop (demoStatus 0) ["c2"] 1 (by norm_num)]
    rfl
  have hp1 : campaignPass (demoStatus 1) ["c2"] 0 = (["c2"], []) := by
    rw [campaignPass_step_term (demoStatus 1) ["c2"] 0 (by norm_num) (Or.inl rfl)]
    rw [show (["c2"].erase (["c2"].get ⟨0, by norm_num⟩)) = [] from rfl]
    rw [campaignPass_stop (demoStatus 1) [] 1 (by norm_num)]
    rfl
  have hrun : campaignWaitLoop demoStatus 180 0 0 ["c1", "c2"] =
      ([["c1"], ["c2"]], 60, []) := by
    rw [campaignWaitLoop_cont demoStatus 180 0 0 ["c1", "c2"] (by norm_num)
      (by rw [hp0]; decide), hp0]
    rw [campaignWaitLoop_break demoStatus 180 1 60 ["c2"] (by norm_num)
      (by rw [hp1]), hp1]
  have h := campaign_wait_no_repoll demoStatus 180 ["c1", "c2"] (by decide) "c1" 0 1
    (Or.inl rfl) (by rw [hrun]; decide) (by omega)
  exact h

theorem remainingArns_erase (waiting : List String) (hw : waiting.Nodup)
    (arn : String) (act : List String) :
    (waiting.erase arn).filter (fun a => decide (¬ a ∈ act)) =
      waiting.filter (fun a => decide (¬ a ∈ arn :: act)) := by
  rw [List.Nodup.erase_eq_filter hw, List.filter_filter]
  apply List.filter_congr
  intro a _
  by_cases h1 : a = arn <;> by_cases h2 : a ∈ act <;> simp [h1, h2]

theorem remainingArns_cons_active (waiting : List String) (hw : waiting.Nodup)
    (d : ImportJobDesc) (rest : List ImportJobDesc) (hs : d.status = "ACTIVE") :
    remainingArns (waiting.erase d.datasetImportJobArn) rest =
      remainingArns waiting (d :: rest) := by
  unfold remainingArns
  rw [remainingArns_erase waiting hw]
  apply List.filter_congr
  intro a _
  have : activeImportArns (d :: rest) = d.datasetImportJobArn :: activeImportArns rest := by
    simp [activeImportArns, hs]
  rw [this]

theorem remainingArns_cons_inactive (waiting : List String)
    (d : ImportJobDesc) (rest : List ImportJobDesc) (hs : ¬ d.status = "ACTIVE") :
    remainingArns waiting (d :: rest) = remainingArns waiting rest := by
  unfold remainingArns
  apply List.filter_congr
  intro a _
  have : activeImportArns (d :: rest) = activeImportArns rest := by
    simp [activeImportArns, hs]
  rw [this]

theorem are_imports_finished_characterization :
    ∀ (descs : List ImportJobDesc) (waiting : List String),
      waiting.Nodup →
      (∀ d ∈ descs, pyIn "FAILED" d.status = false) →
      (∀ d ∈ descs, d.status = "ACTIVE" → d.datasetImportJobArn ∈ waiting) →
      (descs.map (fun d => d.datasetImportJobArn)).Nodup →
      are_imports_finished waiting descs =
        .ok (remainingArns waiting descs,
          if (remainingArns waiting descs).length = 0 then some true else none)
  | [], waiting, _, _, _, _ => by
    simp [are_imports_finished, remainingArns, activeImportArns]
  | d :: rest, waiting, hw, hF, hM, hN => by
    by_cases hs : d.status = "ACTIVE"
    · have hmem : d.datasetImportJobArn ∈ waiting := hM d (List.mem_cons_self d rest) hs
      have hheadnot : d.datasetImportJobArn ∉ rest.map (fun d => d.datasetImportJobArn) :=
        (List.nodup_cons.mp hN).1
      have hstep : are_imports_finished waiting (d :: rest) =
          are_imports_finished (waiting.erase d.datasetImportJobArn) rest := by
        simp [are_imports_finished, hs, hmem]
      rw [hstep,
        are_imports_finished_characterization rest (waiting.erase d.datasetImportJobArn)
          (hw.erase _)
          (fun x hx => hF x (List.mem_cons_of_mem d hx))
          (fun x hx hxs => by
            have hxw : x.datasetImportJobArn ∈ waiting :=
              hM x (List.mem_cons_of_mem d hx) hxs
            have hne : x.datasetImportJobArn ≠ d.datasetImportJobArn := by
              intro he
              exact hheadnot (he ▸ List.mem_map_of_mem _ hx)
            exact (List.mem_erase_of_ne hne).mpr hxw)
          (List.nodup_cons.mp hN).2,
        remainingArns_cons_active waiting hw d rest hs]
    · have hf : pyIn "FAILED" d.status = false := hF d (List.mem_cons_self d rest)
      have hstep : are_imports_finished waiting (d :: rest) =
          are_imports_finished waiting rest := by
        simp [are_imports_finished, hs, hf]
      rw [hstep,
        are_imports_finished_characterization rest waiting hw
          (fun x hx => hF x (List.mem_cons_of_mem d hx))
          (fun x hx hxs => hM x (List.mem_cons_of_mem d hx) hxs)
          (List.nodup_cons.mp hN).2,
        remainingArns_cons_inactive waiting d rest hs]

theorem are_solutions_finished_eq_imports :
    ∀ (sols : List SolutionVersionDesc) (waiting : List String),
      (∀ s ∈ sols, pyIn "FAILED" s.status = false) →
      are_solutions_finished waiting sols =
        are_imports_finished waiting (sols.map SolutionVersionDesc.toImport)
  | [], _, _ => rfl
  | s :: rest, waiting, hF => by
    have ihF : ∀ x ∈ rest, pyIn "FAILED" x.status = false :=
      fun x hx => hF x (List.mem_cons_of_mem s hx)
    by_cases hs : s.status = "ACTIVE"
    · by_cases hm : s.solutionVersionArn ∈ waiting <;>
        simp [are_solutions_finished, are_imports_finished, SolutionVersionDesc.toImport,
          hs, hm, are_solutions_finished_eq_imports rest _ ihF]
    · have hf : pyIn "FAILED" s.status = false := hF s (List.mem_cons_self s rest)
      simp [are_solutions_finished, are_imports_finished, SolutionVersionDesc.toImport,
        hs, hf, are_solutions_finished_eq_imports rest waiting ihF]

/-- C5 counterexample: evaluating `are_imports_finished` on a snapshot whose
first job is `"ACTIVE"` changes the outer variable `waiting_arns` from
`["arn:int", "arn:items"]` to `["arn:items"]` — the predicate is not pure
and does not leave `waiting_arns` unchanged. -/
theorem are_imports_finished_mutates_waiting_arns :
    are_imports_finished ["arn:int", "arn:items"]
        [⟨"ACTIVE", "arn:int"⟩, ⟨"CREATE IN_PROGRESS", "arn:items"⟩] =
      .ok (["arn:items"], none)
    ∧ (["arn:items"] : List String) ≠ ["arn:int", "arn:items"] := by
  decide

/-- C5 (amended): `are_imports_finished` and `are_solutions_finished` are not
pure — each removes from the outer `waiting_arns` list every ARN whose
description shows status `"ACTIVE"`.  Given a duplicate-free waiting list and
a snapshot with no failure-like status in which every `"ACTIVE"` job is still
being waited on, each predicate rewrites `waiting_arns` to exactly the
not-yet-active ARNs and returns `True` precisely when that list is empty
(`None` otherwise); the outcome is a function of the snapshot *and* the
mutable waiting list, not of the snapshot alone. -/
theorem waiting_predicates_remove_active
    (waiting : List String) (descs : List ImportJobDesc) (sols : List SolutionVersionDesc)
    (hw : waiting.Nodup)
    (hF : ∀ d ∈ descs, pyIn "FAILED" d.status = false)
    (hM : ∀ d ∈ descs, d.status = "ACTIVE" → d.datasetImportJobArn ∈ waiting)
    (hN : (descs.map (fun d => d.datasetImportJobArn)).Nodup)
    (hFs : ∀ s ∈ sols, pyIn "FAILED" s.status = false)
    (hMs : ∀ s ∈ sols, s.status = "ACTIVE" → s.solutionVersionArn ∈ waiting)
    (hNs : (sols.map (fun s => s.solutionVersionArn)).Nodup) :
    are_imports_finished waiting descs =
      .ok (remainingArns waiting descs,
        if (remainingArns waiting descs).length = 0 then some true else none)
    ∧ are_solutions_finished waiting sols =
      .ok (remainingArns waiting (sols.map SolutionVersionDesc.toImport),
        if (remainingArns waiting (sols.map SolutionVersionDesc.toImport)).length = 0
        then some true else none) := by
  refine ⟨are_imports_finished_characterization descs waiting hw hF hM hN, ?_⟩
  rw [are_solutions_finished_eq_imports sols waiting hFs]
  apply are_imports_finished_characterization (sols.map SolutionVersionDesc.toImport) waiting hw
  · intro x hx
    obtain ⟨s, hsmem, rfl⟩ := List.mem_map.mp hx
    exact hFs s hsmem
  · intro x hx
    obtain ⟨s, hsmem, rfl⟩ := List.mem_map.mp hx
    exact hMs s hsmem
  · simpa [List.map_map, Function.comp, SolutionVersionDesc.toImport] using hNs

/-- C5 witness: on a concrete waiting list `["a", "b"]`, the imports
predicate observing `a` as `"ACTIVE"` shrinks the list to `["b"]`, and the
solutions predicate observing `b` still in progress leaves it unchanged. -/
theorem waiting_predicates_remove_active_witness :
    are_imports_finished ["a", "b"] [⟨"ACTIVE", "a"⟩] = .ok (["b"], none)
    ∧ are_solutions_finished ["a", "b"] [⟨"CREATE IN_PROGRESS", "b"⟩] =
      .ok (["a", "b"], none) := by
  have h := waiting_predicates_remove_active ["a", "b"] [⟨"ACTIVE", "a"⟩]
    [⟨"CREATE IN_PROGRESS", "b"⟩] (by decide) (by decide) (by decide) (by decide)
    (by decide) (by decide) (by decide)
  refine ⟨?_, ?_⟩
  · rw [h.1]; rfl
  · rw [h.2]; rfl

theorem session_dict_get_const (ctx : ProcessCtx) (d : SessionDict) (u : String)
    (hd : SessionDictConst ctx d) :
    (session_dict_get ctx d u).2 = ctx.uuid1_repr ∧
      SessionDictConst ctx (session_dict_get ctx d u).1 := by
  unfold session_dict_get
  cases hf : d.find? (fun p => p.1 == u) with
  | some p => exact ⟨hd p (List.mem_of_find?_eq_some hf), hd⟩
  | none =>
    refine ⟨rfl, ?_⟩
    intro p hp
    rcases List.mem_cons.mp hp with h | h
    · rw [h]; rfl
    · exact hd p h

/-- C9: `generate_random_session_id` returns the identical string on every
invocation within a run (it stringifies the function object `uuid.uuid1`
without calling it), so `session_dict` assigns every distinct `user_id` one
and the same session-id value, and any two `log_new_review` calls in a run —
for any users, items, ratings and dict states reachable from the empty dict —
send `put_events` requests with equal `sessionId`; no per-user randomness is
observable. -/
theorem log_new_review_constant_session_id (ctx : ProcessCtx)
    (d1 d2 : SessionDict) (h1 : SessionDictConst ctx d1) (h2 : SessionDictConst ctx d2)
    (now1 now2 : Nat) (u1 u2 item1 item2 : String) (r1 r2 : Nat)
    (rec1 rec2 : Option String) (imp1 imp2 : Option (List String)) :
    generate_random_session_id ctx = ctx.uuid1_repr
    ∧ (log_new_review ctx d1 now1 u1 item1 r1 rec1 imp1).2.sessionId = ctx.uuid1_repr
    ∧ (log_new_review ctx d1 now1 u1 item1 r1 rec1 imp1).2.sessionId =
        (log_new_review ctx d2 now2 u2 item2 r2 rec2 imp2).2.sessionId
    ∧ SessionDictConst ctx (log_new_review ctx d1 now1 u1 item1 r1 rec1 imp1).1 := by
  obtain ⟨ha1, hb1⟩ := session_dict_get_const ctx d1 u1 h1
  obtain ⟨ha2, _⟩ := session_dict_get_const ctx d2 u2 h2
  refine ⟨rfl, ?_, ?_, ?_⟩
  · simpa [log_new_review] using ha1
  · simp only [log_new_review]
    rw [ha1, ha2]
  · simpa [log_new_review] using hb1

/-- C9 witness: with the process constant `"<function uuid1 at 0x7f1>"`, two
concrete `log_new_review` calls for different users (one user already in the
dict, one not) send the same `sessionId`. -/
theorem log_new_review_constant_session_id_witness :
    (log_new_review ⟨"<function uuid1 at 0x7f1>", "trk"⟩ [] 10 "1" "100" 5 none none).2.sessionId
      = (log_new_review ⟨"<function uuid1 at 0x7f1>", "trk"⟩
          [("2", "<function uuid1 at 0x7f1>")] 11 "2" "101" 4 none none).2.sessionId :=
  (log_new_review_constant_session_id ⟨"<function uuid1 at 0x7f1>", "trk"⟩
    [] [("2", "<function uuid1 at 0x7f1>")]
    (by intro p hp; cases hp) (by intro p hp; simp at hp; rw [hp])
    10 11 "1" "2" "100" "101" 5 4 none none none none).2.2.1

end PersonalizePoc
